import Mathlib

/-!
# Verification of the e2e-ml-platform recommendation and churn pipeline

Shallow embedding, in Lean 4, of the parts of the repository that the
specification's claims are about:

* `src/local_env/mlflow/recommendation/main.py` — the `RecommendationSystem`
  class: content-based scoring, collaborative scoring, and the hybrid blend.
* `src/model_api/app/main.py` — the prediction API: request validation
  (`UserData`), `predict_churn`, `get_user_features`.
* `src/ml_models/churn_prediction/feature_engineering.py` (identical code is
  inlined in `src/local_env/mlflow/churn_prediction/main.py`) — the
  `FeatureEngineer.engineer_features` arithmetic.
* `src/local_env/mlflow/churn_prediction/train.py` and
  `src/local_env/mlflow/churn_prediction/main.py` — the
  `ChurnModelTrainer.hyperparameter_tuning` step.

Modelling conventions:

* Numeric scores are rationals (`ℚ`); the Python code uses IEEE doubles, but
  every claim under study is about exact arithmetic identity, ordering or
  error signalling, not rounding.
* Product ids and user ids are naturals / integers.
* Python's `sorted(..., key=lambda x: x[1], reverse=True)` and pandas
  `nlargest(..., keep="first")` are stable sorts comparing scores only:
  tied entries keep their input order.  The two per-model scorers build
  their input lists by iterating product ids in ascending order
  (`pivot_table` sorts its columns), so their outputs realize the total
  order "higher score first, ties by lower product id" (`rankRel`), and we
  embed those two sorts by that total order.  The hybrid blend of line 203,
  however, sorts a dict built by iterating
  `set(content_dict.keys()) | set(collab_dict.keys())`, whose iteration
  order is CPython hash-table state, not ascending id (e.g.
  `set({37: 10.0, 5: 8.0, 17: 8.0, 49: 8.0}.keys())` iterates
  `[17, 5, 37, 49]` under CPython 3.11), so the blend's tied entries keep
  that set order.  The embedding therefore models the blend's sort as the
  stable score-only sort (`pySortDesc`) and takes the set-iteration order
  as an explicit list parameter `U`, constrained only by membership — which
  is all Python guarantees.
* External ML library calls (`surprise` `SVD.predict`, sklearn
  `cosine_similarity`, fitted classifiers) are abstracted as score functions:
  the spec itself treats those estimators as out-of-scope collaborators.
* Fallible code is embedded with `Except`; pandas NaN/±inf cells are embedded
  as `Option` values (`none` = non-finite / missing).
-/

set_option maxHeartbeats 1000000

namespace E2EML

/-! ## Dictionaries of product scores

`content_dict = {pid: score for pid, score in content_recs}` and
`collab_dict.get(pid, 0)` from `hybrid_recommendations`
(`src/local_env/mlflow/recommendation/main.py`, lines 187-197).
A dict built from a list of pairs is embedded as the association list itself
(key lists are duplicate-free in all uses). -/

/-- Python `d.get(p, 0)`: the score stored for product `p`, or `0` when absent. -/
def dictGet (d : List (Nat × ℚ)) (p : Nat) : ℚ :=
  ((d.find? fun kv => kv.1 == p).map Prod.snd).getD 0

/-- The key set of a score dictionary. -/
def dictKeys (d : List (Nat × ℚ)) : List Nat := d.map Prod.fst

/-! ## The ranking order

Python's stable descending sort on score, applied to a list whose product ids
ascend, realizes the total order: higher score first, ties by lower id. -/

/-- Relation `rankRel a b`: entry `a` is ranked no later than entry `b`. -/
def rankRel (a b : Nat × ℚ) : Prop :=
  b.2 < a.2 ∨ (a.2 = b.2 ∧ a.1 ≤ b.1)

instance : DecidableRel rankRel := fun a b =>
  inferInstanceAs (Decidable (b.2 < a.2 ∨ (a.2 = b.2 ∧ a.1 ≤ b.1)))

instance : IsTotal (Nat × ℚ) rankRel := by
  constructor
  intro a b
  rcases lt_trichotomy a.2 b.2 with h | h | h
  · exact Or.inr (Or.inl h)
  · rcases Nat.le_total a.1 b.1 with h1 | h1
    · exact Or.inl (Or.inr ⟨h, h1⟩)
    · exact Or.inr (Or.inr ⟨h.symm, h1⟩)
  · exact Or.inl (Or.inl h)

instance : IsTrans (Nat × ℚ) rankRel := by
  constructor
  intro a b c hab hbc
  rcases hab with h | ⟨he, hi⟩
  · rcases hbc with h2 | ⟨he2, _⟩
    · exact Or.inl (h2.trans h)
    · exact Or.inl (he2 ▸ h)
  · rcases hbc with h2 | ⟨he2, hi2⟩
    · exact Or.inl (he ▸ h2)
    · exact Or.inr ⟨he.trans he2, hi.trans hi2⟩

instance : IsAntisymm (Nat × ℚ) rankRel := by
  constructor
  intro a b hab hba
  rcases hab with h | ⟨he, hi⟩
  · rcases hba with h2 | ⟨he2, _⟩
    · exact absurd (h.trans h2) (lt_irrefl _)
    · exact absurd h (he2 ▸ lt_irrefl _)
  · rcases hba with h2 | ⟨he2, hi2⟩
    · exact absurd h2 (he ▸ lt_irrefl _)
    · exact Prod.ext (Nat.le_antisymm hi hi2) he

/-- The stable descending sort used by every scorer in
`recommendation/main.py` (ascending-id input makes Python's stable sort agree
with this total order). -/
def sortRanked (l : List (Nat × ℚ)) : List (Nat × ℚ) :=
  List.insertionSort rankRel l

/-! ## Collaborative scorer — `generate_collaborative_recommendations`
(lines 155-177).  `predictions` is built over the non-interacted product ids
in ascending column order, scored by `algo.predict(user_id, pid).est`
(abstracted as `score`), sorted descending and truncated. -/

/-- Shared shape of both scorers: score every candidate product, sort
descending (ties by ascending id), keep the first `n`.  For the collaborative
scorer, `cands` is the list of products the user has not interacted with (in
ascending pivot-column order) and `score` is the SVD estimate. -/
def genRecs (score : Nat → ℚ) (cands : List Nat) (n : Nat) : List (Nat × ℚ) :=
  (sortRanked (cands.map fun p => (p, score p))).take n

/-! ## Content-based scorer — `generate_content_based_recommendations`
(lines 92-130). -/

/-- Pointwise sum of two feature vectors (`numpy` `+=`). -/
def addVec {n : Nat} (v w : Fin n → ℚ) : Fin n → ℚ := fun i => v i + w i

/-- Scalar multiple of a feature vector. -/
def smulVec {n : Nat} (c : ℚ) (v : Fin n → ℚ) : Fin n → ℚ := fun i => c * v i

/-- Vector `np.zeros(len(columns))`. -/
def zeroVec (n : Nat) : Fin n → ℚ := fun _ => 0

/-- The accumulation loop of lines 104-109: starting from the zero vector,
add `ratings_row[p] * features[p]` for every interacted product `p` that is
present in the feature index. -/
def userProfileSum {n : Nat} (row : Nat → ℚ) (interacted : List Nat)
    (featIds : List Nat) (features : Nat → Fin n → ℚ) : Fin n → ℚ :=
  interacted.foldl
    (fun acc p =>
      if p ∈ featIds then addVec acc (smulVec (row p) (features p)) else acc)
    (zeroVec n)

/-- Lines 104-113: the accumulated profile divided by
`len(interacted_products)` (guarded by `len(...) > 0`). -/
def userProfile {n : Nat} (row : Nat → ℚ) (interacted : List Nat)
    (featIds : List Nat) (features : Nat → Fin n → ℚ) : Fin n → ℚ :=
  if 0 < interacted.length then
    smulVec (1 / (interacted.length : ℚ))
      (userProfileSum row interacted featIds features)
  else
    userProfileSum row interacted featIds features

/-- Modelled from the spec (§4.4 Content Scorer), for comparison with the
code's `userProfile`: "a user profile as the interaction-count-weighted
average of the feature vectors of products the user has interacted with",
i.e. the sum of `count • vector` divided by the total interaction weight. -/
def specUserProfile {n : Nat} (row : Nat → ℚ) (interacted : List Nat)
    (features : Nat → Fin n → ℚ) : Fin n → ℚ :=
  smulVec (1 / (interacted.map row).sum)
    (interacted.foldl
      (fun acc p => addVec acc (smulVec (row p) (features p)))
      (zeroVec n))

/-- One row of the aggregated interaction query (lines 27-38): a
`GROUP BY user_id, product_id` over `sales`, so `interaction_count` is a
`COUNT(*)` and is at least 1 — a user with zero interactions has **no** row
here. -/
structure InteractionRow where
  user_id : Nat
  product_id : Nat
  interaction_count : ℚ

/-- The index of the pivot table built by `create_utility_matrix`
(lines 54-66): the users occurring in the aggregated interaction rows,
sorted ascending by `pivot_table`. -/
def pivotIndex (rows : List InteractionRow) : List Nat :=
  List.insertionSort (fun a b : Nat => a ≤ b)
    ((rows.map fun r => r.user_id).dedup)

/-- The columns of the pivot table: the products occurring in the rows,
sorted ascending. -/
def pivotCols (rows : List InteractionRow) : List Nat :=
  List.insertionSort (fun a b : Nat => a ≤ b)
    ((rows.map fun r => r.product_id).dedup)

/-- One cell of the pivot table: the aggregated `interaction_count` of the
(unique, by the SQL `GROUP BY`) matching row, with `fill_value=0` for
absent pairs. -/
def pivotEntry (rows : List InteractionRow) (u p : Nat) : ℚ :=
  match rows.find? fun r => r.user_id == u && r.product_id == p with
  | some r => r.interaction_count
  | none => 0

/-- Pandas label lookup `self.ratings_matrix.loc[user_id]` (line 97): the
user's row of the pivot table when the label is in the index, and a
`KeyError` when it is not — which is the case for every user with zero
interactions. -/
def ratingsMatrixLoc (rows : List InteractionRow) (uid : Nat) :
    Except String (Nat → ℚ) :=
  if uid ∈ pivotIndex rows then Except.ok (fun p => pivotEntry rows uid p)
  else Except.error "KeyError"

/-- Method `generate_content_based_recommendations(user_id, n)`
(lines 92-130).  `rows` are the aggregated interactions behind
`ratings_matrix`, `featIds` the `product_features` index (in ascending-id
order), `features` the per-product feature vectors and `sim` the (external,
float-valued) `cosine_similarity` kept abstract.  Line 97 looks the user up
in the pivot index — raising `KeyError` for a user absent from it; lines
98-101 compute the interacted products and return `[]` when there are none;
lines 116-130 score every product, drop interacted ones and keep the `n`
largest (stable over the index order, embedded as the `rankRel` sort). -/
def generate_content_based_recommendations {m : Nat}
    (rows : List InteractionRow) (uid : Nat) (featIds : List Nat)
    (features : Nat → Fin m → ℚ)
    (sim : (Fin m → ℚ) → (Fin m → ℚ) → ℚ) (n : Nat) :
    Except String (List (Nat × ℚ)) :=
  match ratingsMatrixLoc rows uid with
  | Except.error e => Except.error e
  | Except.ok row =>
      let interacted := (pivotCols rows).filter fun p => decide (0 < row p)
      if interacted.isEmpty then Except.ok []
      else
        let profile := userProfile row interacted featIds features
        let scored := featIds.map fun p => (p, sim profile (features p))
        let candidates := scored.filter fun x => decide (x.1 ∉ interacted)
        Except.ok ((sortRanked candidates).take n)

/-! ## Hybrid blender — `hybrid_recommendations` (lines 179-205). -/

/-- The *key set* of
`all_products = set(content_dict.keys()) | set(collab_dict.keys())`,
enumerated here in ascending product-id order.  This enumeration is used
only for order-insensitive statements (which products are blended, and with
what score — claim C1); the actual CPython iteration order of the set is
hash-table state and is passed explicitly (as `U`) wherever the output
*order* matters. -/
def unionKeys (cD kD : List (Nat × ℚ)) : List Nat :=
  List.insertionSort (fun a b : Nat => a ≤ b) (dictKeys cD ∪ dictKeys kD)

/-- Lines 192-200: the blended score dictionary — for each product of the
union, `alpha * content_dict.get(pid, 0) + (1 - alpha) * collab_dict.get(pid, 0)`.
(Enumerated over `unionKeys`; every conclusion drawn from this definition is
invariant under the enumeration order.) -/
def hybridScores (cD kD : List (Nat × ℚ)) (alpha : ℚ) : List (Nat × ℚ) :=
  (unionKeys cD kD).map fun p =>
    (p, alpha * dictGet cD p + (1 - alpha) * dictGet kD p)

/-- Relation `scoreGe a b`: entry `a`'s score is at least entry `b`'s.  This
is the *whole* comparison key of line 203's
`sorted(hybrid_scores.items(), key=lambda x: x[1], reverse=True)` — there is
no secondary key, so tied entries keep their input (dict-insertion)
order. -/
def scoreGe (a b : Nat × ℚ) : Prop := b.2 ≤ a.2

instance : DecidableRel scoreGe := fun a b =>
  inferInstanceAs (Decidable (b.2 ≤ a.2))

instance : IsTotal (Nat × ℚ) scoreGe :=
  ⟨fun a b => (le_total b.2 a.2).imp id id⟩

instance : IsTrans (Nat × ℚ) scoreGe :=
  ⟨fun _ _ _ h1 h2 => le_trans h2 h1⟩

/-- Python's stable `sorted(..., key=lambda x: x[1], reverse=True)`
(line 203): descending by score, tied entries keeping input order
(insertion sort is stable). -/
def pySortDesc (l : List (Nat × ℚ)) : List (Nat × ℚ) :=
  List.insertionSort scoreGe l

/-- Lines 192-205: blend the two score dictionaries and keep the top `n`.
`U` is the iteration order of
`set(content_dict.keys()) | set(collab_dict.keys())`: CPython fixes which
keys the set holds, but their order is hash-table state, so the embedding
takes it as a parameter constrained only by membership. -/
def hybrid_blend (U : List Nat) (cD kD : List (Nat × ℚ)) (alpha : ℚ)
    (n : Nat) : List (Nat × ℚ) :=
  (pySortDesc (U.map fun p =>
    (p, alpha * dictGet cD p + (1 - alpha) * dictGet kD p))).take n

/-- Method `hybrid_recommendations(algo, user_id, n, alpha)`: both scorers
are asked for their top `2 * n`, then blended.  The two scorer calls are
abstracted to `genRecs` over the shared candidate list (the user's
non-interacted products) with their respective score functions
(`cosine_similarity` against the user profile, and `algo.predict(...).est`);
`U` is the set-iteration order of the blended key union. -/
def hybrid_recommendations (U : List Nat) (contentScore collabScore : Nat → ℚ)
    (cands : List Nat) (n : Nat) (alpha : ℚ) : List (Nat × ℚ) :=
  hybrid_blend U (genRecs contentScore cands (2 * n))
    (genRecs collabScore cands (2 * n)) alpha n

/-! ## Prediction API — `src/model_api/app/main.py`

Request validation of `UserData` (lines 55-65): every field is a required
pydantic field with the declared `ge`/`le`/length constraints; a request body
missing a required field is rejected by the framework's validation layer
before the handler runs (the `SchemaMismatch` signal of the spec). -/

/-- A validated `UserData` record (lines 55-65). -/
structure UserData where
  user_id : Int
  age : Int
  country : String
  total_orders : Int
  total_spent : ℚ
  days_since_last_order : Int
  avg_order_value : ℚ
  customer_duration_days : Int
  order_frequency : ℚ
  daily_spend : ℚ

/-- An incoming request record: each declared field either present or
absent (unknown extra fields are ignored by pydantic and not modelled). -/
structure UserDataRaw where
  user_id : Option Int
  age : Option Int
  country : Option String
  total_orders : Option Int
  total_spent : Option ℚ
  days_since_last_order : Option Int
  avg_order_value : Option ℚ
  customer_duration_days : Option Int
  order_frequency : Option ℚ
  daily_spend : Option ℚ

/-- Pydantic validation of one `UserData` item: every declared field is
required (missing fields raise a validation error) and the declared numeric
bounds are checked.  Fields are checked in declaration order. -/
def validateUserData (r : UserDataRaw) : Except String UserData :=
  match r.user_id with
  | none => Except.error "user_id: field required"
  | some uid =>
    match r.age with
    | none => Except.error "age: field required"
    | some age =>
      match r.country with
      | none => Except.error "country: field required"
      | some country =>
        match r.total_orders with
        | none => Except.error "total_orders: field required"
        | some torders =>
          match r.total_spent with
          | none => Except.error "total_spent: field required"
          | some tspent =>
            match r.days_since_last_order with
            | none => Except.error "days_since_last_order: field required"
            | some dslo =>
              match r.avg_order_value with
              | none => Except.error "avg_order_value: field required"
              | some aov =>
                match r.customer_duration_days with
                | none => Except.error "customer_duration_days: field required"
                | some cdd =>
                  match r.order_frequency with
                  | none => Except.error "order_frequency: field required"
                  | some ofreq =>
                    match r.daily_spend with
                    | none => Except.error "daily_spend: field required"
                    | some dspend =>
                      if 18 ≤ age ∧ age ≤ 100 ∧ 2 ≤ country.length ∧
                          country.length ≤ 50 ∧ 0 ≤ torders ∧ 0 ≤ tspent ∧
                          0 ≤ dslo ∧ 0 ≤ aov ∧ 0 ≤ cdd ∧ 0 ≤ ofreq ∧
                          0 ≤ dspend then
                        Except.ok
                          ⟨uid, age, country, torders, tspent, dslo, aov,
                            cdd, ofreq, dspend⟩
                      else Except.error "value constraint violated"

/-- One entry of the `predict_churn` response list (lines 72-76);
`timestamp` is the wall-clock instant, irrelevant to the claims. -/
structure ChurnPredictionResponse where
  user_id : Int
  churn_probability : ℚ
  will_churn : Bool
  timestamp : Int

/-- Endpoint `predict_churn` (lines 135-161), with the fitted classifier abstracted:
`probaFn u` is `model.predict_proba(features_df)[i, 1]` for the row built
from `u` (sklearn predictions are row-wise) and `predictFn u` the label
`model.predict(features_df)[i]`.  The response is built by
`for i, user in enumerate(request.users)`, pairing user `i` with
probability `i`. -/
def predict_churn (predictFn probaFn : UserData → ℚ) (now : Int)
    (users : List UserData) : List ChurnPredictionResponse :=
  users.map fun u =>
    ⟨u.user_id, probaFn u, decide ((1 : ℚ) / 2 < predictFn u), now⟩

/-- One row of the `user_metrics` query of `get_user_features`
(lines 227-256); only the identifying column matters to the claim. -/
structure UserFeaturesRow where
  user_id : Int
  country : String
  age : Int
  total_orders : Int
  total_spent : ℚ

/-- Rendering `str(e)` for a FastAPI/starlette `HTTPException`:
`"{status_code}: {detail}"`. -/
def strOfHTTPError (status : Nat) (detail : String) : String :=
  toString status ++ ": " ++ detail

/-- The body of the `try:` block of `get_user_features` (lines 224-263):
query the row for `user_id`; when the result set is empty, raise
`HTTPException(404, "User not found")`. -/
def getUserFeaturesBody (db : List UserFeaturesRow) (uid : Int) :
    Except (Nat × String) UserFeaturesRow :=
  match (db.filter fun row => row.user_id == uid).head? with
  | none => Except.error (404, "User not found")
  | some row => Except.ok row

/-- Endpoint `get_user_features` (lines 221-267) with its
`except Exception as e: raise HTTPException(500, ...)` handler.  FastAPI's
`HTTPException` subclasses `Exception`, so the 404 raised inside the `try:`
block is caught by the blanket handler and re-raised as a 500 whose detail
embeds `str(e)`. -/
def get_user_features (db : List UserFeaturesRow) (uid : Int) :
    Except (Nat × String) UserFeaturesRow :=
  match getUserFeaturesBody db uid with
  | Except.ok row => Except.ok row
  | Except.error e =>
      Except.error (500, "Failed to get user features: " ++ strOfHTTPError e.1 e.2)

/-! ## Feature engineering — `FeatureEngineer.engineer_features`
(`src/ml_models/churn_prediction/feature_engineering.py`, lines 57-74; the
same code appears at `src/local_env/mlflow/churn_prediction/main.py`,
lines 65-82).

Pandas cells are embedded as `Option` values: `none` is a missing (`NaT` /
`NaN`) or non-finite cell.  `replace([np.inf, -np.inf], 0)` and `fillna(0)`
together clamp every non-finite cell to `0`, embedded as `Option.getD 0`. -/

/-- One raw row of the `user_metrics` query: `total_orders` is a `COUNT`
(never NULL), while `SUM`, `MIN` and `MAX` over an empty group are NULL.
Dates are day numbers. -/
structure RawUserRow where
  total_orders : Int
  total_spent : Option ℚ
  first_order_date : Option Int
  last_order_date : Option Int

/-- Column `(last_order_date - first_order_date).dt.days`: NaT-propagating
subtraction. -/
def dateSub (a b : Option Int) : Option Int :=
  match a, b with
  | some x, some y => some (x - y)
  | _, _ => none

/-- Method `.replace(0, 1)` on the duration column (NaN cells stay NaN). -/
def replaceZeroWithOne (d : Option Int) : Option Int :=
  d.map fun x => if x = 0 then 1 else x

/-- Pandas column division: NaN-propagating, and a zero denominator yields a
non-finite cell (±inf or NaN), embedded as `none`. -/
def colDiv (a : Option ℚ) (b : Option Int) : Option ℚ :=
  match a, b with
  | some x, some y => if y = 0 then none else some (x / (y : ℚ))
  | _, _ => none

/-- The derived columns of one row after `engineer_features`: the two
quotients plus the duration, with every non-finite cell clamped to `0` by
the trailing `replace([np.inf, -np.inf], 0)` / `fillna(0)`. -/
structure EngineeredRow where
  customer_duration_days : ℚ
  order_frequency : ℚ
  daily_spend : ℚ

/-- Method `engineer_features` on one row (lines 62-74 of
`feature_engineering.py`). -/
def engineer_features (r : RawUserRow) : EngineeredRow :=
  let dur := dateSub r.last_order_date r.first_order_date
  let denom := replaceZeroWithOne dur
  let ofreq := colDiv (some (r.total_orders : ℚ)) denom
  let dspend := colDiv r.total_spent denom
  ⟨((dur.map fun d => (d : ℚ)).getD 0), ofreq.getD 0, dspend.getD 0⟩

/-! ## Hyperparameter tuning — `ChurnModelTrainer.hyperparameter_tuning`

Two copies exist: `src/local_env/mlflow/churn_prediction/train.py`
(lines 87-117) builds a fresh `RandomForestClassifier` regardless of the
selected model, and `src/local_env/mlflow/churn_prediction/main.py`
(lines 192-222) passes `self.champion_model` to `GridSearchCV` but keeps the
random-forest parameter grid.  `GridSearchCV` raises a `ValueError` when a
grid key is not a parameter of the estimator (sklearn `set_params`
contract), so the grid is only valid for estimators of a family exposing all
four keys. -/

/-- The three candidate estimator families of `train_models`. -/
inductive EstimatorKind where
  | logisticRegression
  | randomForest
  | gradientBoosting
deriving DecidableEq, Repr

/-- The constructor parameter names of each sklearn estimator family that are
relevant to the grid (documented sklearn API): `LogisticRegression` exposes
none of the tree parameters, while both ensemble classifiers expose all
four. -/
def validParamKeys : EstimatorKind → List String
  | EstimatorKind.logisticRegression =>
      ["penalty", "C", "solver", "max_iter", "random_state"]
  | EstimatorKind.randomForest =>
      ["n_estimators", "max_depth", "min_samples_split", "min_samples_leaf",
        "random_state"]
  | EstimatorKind.gradientBoosting =>
      ["n_estimators", "max_depth", "min_samples_split", "min_samples_leaf",
        "learning_rate", "random_state"]

/-- The keys of the `param_grid` literal (identical in both copies). -/
def rfGridKeys : List String :=
  ["n_estimators", "max_depth", "min_samples_split", "min_samples_leaf"]

/-- The arguments of one `GridSearchCV(estimator, param_grid, cv=..,
scoring=..)` call. -/
structure GridSearchCall where
  estimator : EstimatorKind
  gridKeys : List String
  cv : Nat
  scoring : String

/-- Method `hyperparameter_tuning` of `train.py` (lines 87-117): the method reads
nothing of the estimator-selection outcome — it always grid-searches a fresh
`RandomForestClassifier(random_state=42)`. -/
def hyperparameter_tuning_train : GridSearchCall :=
  ⟨EstimatorKind.randomForest, rfGridKeys, 3, "roc_auc"⟩

/-- Method `hyperparameter_tuning` of `main.py` (lines 192-222): the grid search is
run on `self.champion_model` (the selected estimator), still with the
random-forest parameter grid. -/
def hyperparameter_tuning_main (champion : EstimatorKind) : GridSearchCall :=
  ⟨champion, rfGridKeys, 3, "roc_auc"⟩

/-- Whether `GridSearchCV.fit` accepts the grid: every grid key must be a
parameter of the estimator, else sklearn raises `ValueError: Invalid
parameter`. -/
def gridKeysValid (c : GridSearchCall) : Bool :=
  c.gridKeys.all fun k => k ∈ validParamKeys c.estimator

/-! # Helper lemmas -/

theorem sortRanked_perm (l : List (Nat × ℚ)) : List.Perm (sortRanked l) l :=
  List.perm_insertionSort rankRel l

theorem sortRanked_sorted (l : List (Nat × ℚ)) : (sortRanked l).Sorted rankRel :=
  List.sorted_insertionSort rankRel l

theorem pySortDesc_perm (l : List (Nat × ℚ)) : List.Perm (pySortDesc l) l :=
  List.perm_insertionSort scoreGe l

theorem pySortDesc_sorted (l : List (Nat × ℚ)) :
    (pySortDesc l).Sorted scoreGe :=
  List.sorted_insertionSort scoreGe l

theorem rankRel_imp_scoreGe {a b : Nat × ℚ} (h : rankRel a b) : scoreGe a b := by
  rcases h with h | ⟨h, _⟩
  · exact le_of_lt h
  · exact le_of_eq h.symm

theorem sorted_pos_split {S : List (Nat × ℚ)} (hs : S.Sorted scoreGe)
    (hd : ∀ e ∈ S, 0 < e.2 ∨ e.2 = 0) :
    S = (S.filter fun e => decide (0 < e.2))
      ++ (S.filter fun e => !decide (0 < e.2)) := by
  induction S with
  | nil => rfl
  | cons a t ih =>
    rcases hd a (List.mem_cons_self a t) with hpos | hzero
    · rw [List.filter_cons_of_pos (by simpa using hpos),
        List.filter_cons_of_neg (by simpa using hpos), List.cons_append]
      exact congrArg (a :: ·)
        (ih (List.Sorted.of_cons hs) fun e he => hd e (List.mem_cons_of_mem a he))
    · have hall : ∀ e ∈ t, e.2 = 0 := by
        intro e he
        have h1 : e.2 ≤ a.2 := List.rel_of_sorted_cons hs e he
        rcases hd e (List.mem_cons_of_mem a he) with h2 | h2
        · exact absurd (lt_of_lt_of_le h2 h1) (by rw [hzero]; exact lt_irrefl 0)
        · exact h2
      have hfp : (a :: t).filter (fun e => decide (0 < e.2)) = [] := by
        refine List.filter_eq_nil_iff.mpr ?_
        intro e he
        rcases List.mem_cons.mp he with rfl | he2
        · simp [hzero]
        · simp [hall e he2]
      have hfn : (a :: t).filter (fun e => !decide (0 < e.2)) = a :: t := by
        refine List.filter_eq_self.mpr ?_
        intro e he
        rcases List.mem_cons.mp he with rfl | he2
        · simp [hzero]
        · simp [hall e he2]
      rw [hfp, hfn, List.nil_append]

theorem eq_of_perm_sorted_inj {l₁ l₂ : List (Nat × ℚ)} (hp : List.Perm l₁ l₂)
    (hs₁ : l₁.Sorted scoreGe) (hs₂ : l₂.Sorted scoreGe)
    (hinj : ∀ a ∈ l₂, ∀ b ∈ l₂, a.2 = b.2 → a = b) : l₁ = l₂ := by
  induction l₂ generalizing l₁ with
  | nil => exact hp.eq_nil
  | cons b t ih =>
    rcases l₁ with _ | ⟨a, s⟩
    · exact absurd hp.symm.eq_nil (by simp)
    · have ha2 : a ∈ b :: t := hp.subset (List.mem_cons_self a s)
      have hab : a = b := by
        rcases List.mem_cons.mp ha2 with rfl | hat
        · rfl
        · have hb1 : b ∈ a :: s := hp.symm.subset (List.mem_cons_self b t)
          rcases List.mem_cons.mp hb1 with heq | hbs
          · exact heq.symm
          · have h1 : a.2 ≤ b.2 := List.rel_of_sorted_cons hs₂ a hat
            have h2 : b.2 ≤ a.2 := List.rel_of_sorted_cons hs₁ b hbs
            exact hinj a ha2 b (List.mem_cons_self b t) (le_antisymm h1 h2)
      subst hab
      have htail := ih hp.cons_inv (List.Sorted.of_cons hs₁)
        (List.Sorted.of_cons hs₂)
        (fun x hx y hy => hinj x (List.mem_cons_of_mem a hx) y
          (List.mem_cons_of_mem a hy))
      rw [htail]

theorem dictGet_nil (p : Nat) : dictGet [] p = 0 := rfl

theorem dictGet_cons (kv : Nat × ℚ) (d : List (Nat × ℚ)) (p : Nat) :
    dictGet (kv :: d) p = if kv.1 = p then kv.2 else dictGet d p := by
  by_cases h : kv.1 = p
  · rw [if_pos h]
    unfold dictGet
    rw [List.find?_cons_of_pos _ (by simpa using h)]
    rfl
  · rw [if_neg h]
    unfold dictGet
    rw [List.find?_cons_of_neg _ (by simpa using h)]

theorem dictGet_map_self {f : Nat → ℚ} {ps : List Nat} (hnd : ps.Nodup)
    {p : Nat} (hp : p ∈ ps) :
    dictGet (ps.map fun q => (q, f q)) p = f p := by
  induction ps with
  | nil => cases hp
  | cons q qs ih =>
    rw [List.map_cons, dictGet_cons]
    rcases List.mem_cons.mp hp with rfl | hp2
    · rw [if_pos rfl]
    · have hq : q ≠ p := by
        rintro rfl
        exact (List.nodup_cons.mp hnd).1 hp2
      rw [if_neg hq]
      exact ih (List.nodup_cons.mp hnd).2 hp2

theorem dictGet_eq_zero_of_not_mem {d : List (Nat × ℚ)} {p : Nat}
    (h : p ∉ dictKeys d) : dictGet d p = 0 := by
  induction d with
  | nil => rfl
  | cons kv d ih =>
    rw [dictGet_cons]
    have h1 : kv.1 ≠ p := by
      intro he
      exact h (by simp [dictKeys, he])
    rw [if_neg h1]
    refine ih fun hm => h ?_
    simp only [dictKeys, List.map_cons, List.mem_cons]
    exact Or.inr hm

theorem dictKeys_map_pair (U : List Nat) (g : Nat → ℚ) :
    dictKeys (U.map fun p => (p, g p)) = U := by
  simp [dictKeys, List.map_map, Function.comp_def]

theorem mem_unionKeys {cD kD : List (Nat × ℚ)} {p : Nat} :
    p ∈ unionKeys cD kD ↔ p ∈ dictKeys cD ∨ p ∈ dictKeys kD := by
  unfold unionKeys
  rw [(List.perm_insertionSort _ _).mem_iff, List.mem_union_iff]

theorem nodup_unionKeys {cD kD : List (Nat × ℚ)}
    (hk : (dictKeys kD).Nodup) : (unionKeys cD kD).Nodup := by
  unfold unionKeys
  exact ((List.perm_insertionSort _ _).nodup_iff).mpr (List.Nodup.union _ hk)

theorem dictKeys_hybridScores (cD kD : List (Nat × ℚ)) (alpha : ℚ) :
    dictKeys (hybridScores cD kD alpha) = unionKeys cD kD := by
  unfold hybridScores
  exact dictKeys_map_pair _ _

theorem genRecs_entry {score : Nat → ℚ} {cands : List Nat} {n : Nat}
    {e : Nat × ℚ} (he : e ∈ genRecs score cands n) :
    e.1 ∈ cands ∧ e = (e.1, score e.1) := by
  have h1 : e ∈ sortRanked (cands.map fun p => (p, score p)) :=
    List.take_subset _ _ he
  have h2 := (sortRanked_perm _).mem_iff.mp h1
  obtain ⟨p, hp, rfl⟩ := List.mem_map.mp h2
  exact ⟨hp, rfl⟩

theorem genRecs_keys_nodup {score : Nat → ℚ} {cands : List Nat} {n : Nat}
    (h : cands.Nodup) : (dictKeys (genRecs score cands n)).Nodup := by
  have hsub : List.Sublist (dictKeys (genRecs score cands n))
      (dictKeys (sortRanked (cands.map fun p => (p, score p)))) :=
    (List.take_sublist _ _).map _
  refine hsub.nodup ?_
  have hperm : List.Perm (dictKeys (sortRanked (cands.map fun p => (p, score p))))
      (dictKeys (cands.map fun p => (p, score p))) :=
    (sortRanked_perm _).map Prod.fst
  rw [hperm.nodup_iff, dictKeys_map_pair]
  exact h

theorem genRecs_keys_sub {score : Nat → ℚ} {cands : List Nat} {n : Nat} :
    ∀ p ∈ dictKeys (genRecs score cands n), p ∈ cands := by
  intro p hp
  obtain ⟨e, he, rfl⟩ := List.mem_map.mp hp
  exact (genRecs_entry he).1

theorem genRecs_sorted (score : Nat → ℚ) (cands : List Nat) (n : Nat) :
    (genRecs score cands n).Sorted rankRel :=
  (sortRanked_sorted _).sublist (List.take_sublist _ _)

theorem genRecs_eq_map_keys (score : Nat → ℚ) (cands : List Nat) (n : Nat) :
    genRecs score cands n
      = (dictKeys (genRecs score cands n)).map fun p => (p, score p) := by
  unfold dictKeys
  rw [List.map_map]
  conv_lhs => rw [← List.map_id (genRecs score cands n)]
  apply List.map_congr_left
  intro e he
  exact (genRecs_entry he).2

theorem dictGet_genRecs {score : Nat → ℚ} {cands : List Nat} {n : Nat}
    (hcands : cands.Nodup) {p : Nat}
    (hp : p ∈ dictKeys (genRecs score cands n)) :
    dictGet (genRecs score cands n) p = score p := by
  conv_lhs => rw [genRecs_eq_map_keys]
  exact dictGet_map_self (genRecs_keys_nodup hcands) hp

theorem genRecs_length (score : Nat → ℚ) (cands : List Nat) (n : Nat) :
    (genRecs score cands n).length = min n cands.length := by
  rw [genRecs, List.length_take, (sortRanked_perm _).length_eq, List.length_map]

theorem userProfileSum_apply {m : Nat} (row : Nat → ℚ) (featIds : List Nat)
    (features : Nat → Fin m → ℚ) (ps : List Nat) (acc : Fin m → ℚ) (j : Fin m)
    (hin : ∀ p ∈ ps, p ∈ featIds) :
    (ps.foldl
        (fun a p =>
          if p ∈ featIds then addVec a (smulVec (row p) (features p)) else a)
        acc) j
      = acc j + (ps.map fun p => row p * features p j).sum := by
  induction ps generalizing acc with
  | nil => simp
  | cons p ps ih =>
    have hp : p ∈ featIds := hin p (List.mem_cons_self p ps)
    rw [List.foldl_cons, if_pos hp, List.map_cons, List.sum_cons,
      ih _ (fun q hq => hin q (List.mem_cons_of_mem p hq))]
    simp only [addVec, smulVec]
    ring

theorem genRecs_sorted_scoreGe (score : Nat → ℚ) (cands : List Nat) (n : Nat) :
    (genRecs score cands n).Sorted scoreGe :=
  (genRecs_sorted score cands n).imp fun h => rankRel_imp_scoreGe h

theorem genRecs_inj_scores {score : Nat → ℚ} {cands : List Nat} {n : Nat}
    (hinj : ∀ p ∈ cands, ∀ q ∈ cands, score p = score q → p = q) :
    ∀ a ∈ genRecs score cands n, ∀ b ∈ genRecs score cands n,
      a.2 = b.2 → a = b := by
  intro a ha b hb he
  obtain ⟨hac, hae⟩ := genRecs_entry ha
  obtain ⟨hbc, hbe⟩ := genRecs_entry hb
  have h3 : a.2 = score a.1 := by rw [hae]
  have h4 : b.2 = score b.1 := by rw [hbe]
  have h5 : a.1 = b.1 := hinj a.1 hac b.1 hbc (by rw [← h3, ← h4, he])
  rw [hae, hbe, h5]

/-- Core of the alpha-boundary analysis of `hybrid_recommendations`: when the
surviving scorer's scores are strictly positive and pairwise distinct on the
candidate set, the blended list — any enumeration `U` of the union keys,
looked up in that scorer's top-`2n` dictionary with products outside the
dictionary entering at `0` — stable-sorts and truncates to exactly that
scorer's top-`n` list, whatever the enumeration order.  (With tied scores
this fails: the tied segment comes out in `U`-order, see the
counterexamples.) -/
theorem boundary_core (score : Nat → ℚ) (cands : List Nat) (n : Nat)
    (U : List Nat) (hcands : cands.Nodup) (hU : U.Nodup)
    (hUsub : ∀ p ∈ U, p ∈ cands)
    (hUsup : ∀ p ∈ dictKeys (genRecs score cands (2 * n)), p ∈ U)
    (hpos : ∀ p ∈ cands, 0 < score p)
    (hinj : ∀ p ∈ cands, ∀ q ∈ cands, score p = score q → p = q) :
    (pySortDesc (U.map fun p =>
        (p, dictGet (genRecs score cands (2 * n)) p))).take n
      = genRecs score cands n := by
  set D := genRecs score cands (2 * n) with hD
  set M := U.map fun p => (p, dictGet D p) with hM
  set S := pySortDesc M with hS
  have hDnd : (dictKeys D).Nodup := by
    rw [hD]
    exact @genRecs_keys_nodup score cands (2 * n) hcands
  have hDget : ∀ p ∈ dictKeys D, dictGet D p = score p := by
    intro p hp
    rw [hD] at hp ⊢
    exact dictGet_genRecs hcands hp
  have hDlen : D.length = min (2 * n) cands.length := by
    rw [hD]
    exact genRecs_length score cands (2 * n)
  have hDsorted : D.Sorted scoreGe := by
    rw [hD]
    exact genRecs_sorted_scoreGe score cands (2 * n)
  have hDinj : ∀ a ∈ D, ∀ b ∈ D, a.2 = b.2 → a = b := by
    rw [hD]
    exact genRecs_inj_scores hinj
  have hDmap : D = (dictKeys D).map fun p => (p, score p) := by
    rw [hD]
    exact genRecs_eq_map_keys score cands (2 * n)
  have hval : ∀ p ∈ U,
      (p ∈ dictKeys D ∧ 0 < dictGet D p) ∨ (p ∉ dictKeys D ∧ dictGet D p = 0) := by
    intro p hp
    by_cases hm : p ∈ dictKeys D
    · refine Or.inl ⟨hm, ?_⟩
      rw [hDget p hm]
      exact hpos p (hUsub p hp)
    · exact Or.inr ⟨hm, dictGet_eq_zero_of_not_mem hm⟩
  have hSperm : List.Perm S M := by
    rw [hS]
    exact pySortDesc_perm M
  have hSsorted : S.Sorted scoreGe := by
    rw [hS]
    exact pySortDesc_sorted M
  have hSdich : ∀ e ∈ S, 0 < e.2 ∨ e.2 = 0 := by
    intro e he
    have he2 : e ∈ M := hSperm.subset he
    rw [hM] at he2
    obtain ⟨p, hp, rfl⟩ := List.mem_map.mp he2
    rcases hval p hp with ⟨_, h3⟩ | ⟨_, h3⟩
    · exact Or.inl h3
    · exact Or.inr h3
  have hsplit := sorted_pos_split hSsorted hSdich
  have hMfilter : M.filter (fun e => decide (0 < e.2))
      = (U.filter fun p => decide (p ∈ dictKeys D)).map
          fun p => (p, dictGet D p) := by
    rw [hM, List.filter_map]
    congr 1
    apply List.filter_congr
    intro p hp
    show decide (0 < dictGet D p) = decide (p ∈ dictKeys D)
    rcases hval p hp with ⟨h1, h3⟩ | ⟨h1, h3⟩
    · exact decide_eq_decide.mpr ⟨fun _ => h1, fun _ => h3⟩
    · refine decide_eq_decide.mpr ⟨fun hlt => ?_, fun hm => absurd hm h1⟩
      rw [h3] at hlt
      exact absurd hlt (lt_irrefl 0)
  have hkeysPerm : List.Perm (U.filter fun p => decide (p ∈ dictKeys D))
      (dictKeys D) := by
    rw [List.perm_ext_iff_of_nodup (hU.filter _) hDnd]
    intro a
    constructor
    · intro ha
      exact of_decide_eq_true (List.mem_filter.mp ha).2
    · intro ha
      exact List.mem_filter.mpr ⟨hUsup a ha, decide_eq_true ha⟩
  have hPosD : List.Perm (S.filter fun e => decide (0 < e.2)) D := by
    refine (hSperm.filter _).trans ?_
    rw [hMfilter]
    refine (hkeysPerm.map fun p => (p, dictGet D p)).trans ?_
    have h5 : (dictKeys D).map (fun p => (p, dictGet D p))
        = (dictKeys D).map fun p => (p, score p) :=
      List.map_congr_left fun p hp => by rw [hDget p hp]
    rw [h5, ← hDmap]
  have hPosEq : S.filter (fun e => decide (0 < e.2)) = D :=
    eq_of_perm_sorted_inj hPosD (hSsorted.filter _) hDsorted hDinj
  rw [hPosEq] at hsplit
  by_cases hn : n ≤ D.length
  · rw [hsplit, List.take_append_of_le_length hn, hD, genRecs, genRecs,
      List.take_take, min_eq_left (by omega : n ≤ 2 * n)]
  · push_neg at hn
    have hclen : cands.length < n := by
      rcases Nat.le_total (2 * n) cands.length with hc | hc
      · omega
      · omega
    have hDfull : D = sortRanked (cands.map fun q => (q, score q)) := by
      rw [hD, genRecs]
      apply List.take_of_length_le
      rw [(sortRanked_perm _).length_eq, List.length_map]
      omega
    have hDall : ∀ p ∈ cands, p ∈ dictKeys D := by
      intro p hp
      rw [hDfull, dictKeys]
      have h4 : p ∈ dictKeys (cands.map fun q => (q, score q)) := by
        rw [dictKeys_map_pair]
        exact hp
      exact ((sortRanked_perm _).map Prod.fst).mem_iff.mpr h4
    have hZnil : S.filter (fun e => !decide (0 < e.2)) = [] := by
      refine List.filter_eq_nil_iff.mpr ?_
      intro e he
      have he2 : e ∈ M := hSperm.subset he
      rw [hM] at he2
      obtain ⟨p, hp, rfl⟩ := List.mem_map.mp he2
      have hpos2 : 0 < dictGet D p := by
        rw [hDget p (hDall p (hUsub p hp))]
        exact hpos p (hUsub p hp)
      simp [hpos2]
    rw [hsplit, hZnil, List.append_nil, List.take_of_length_le (le_of_lt hn),
      hD, genRecs, genRecs]
    rw [List.take_of_length_le, List.take_of_length_le] <;>
      rw [(sortRanked_perm _).length_eq, List.length_map] <;> omega
/-! # Theorems -/

/-- C4 (failing behaviour evaluated): a user with zero interactions has no
aggregated interaction row (`COUNT(*) >= 1` per `GROUP BY` group), hence no
entry in the pivot index built by `create_utility_matrix`, so line 97's
`self.ratings_matrix.loc[user_id]` raises `KeyError`: the content scorer
crashes for exactly these users instead of returning the empty list — the
`if not interacted_products: return []` guard of lines 100-101 (the claim's
and the code's own intent) is unreachable for them. -/
theorem content_scorer_keyerror_on_zero_interactions {m : Nat}
    (rows : List InteractionRow) (uid : Nat) (featIds : List Nat)
    (features : Nat → Fin m → ℚ)
    (sim : (Fin m → ℚ) → (Fin m → ℚ) → ℚ) (n : Nat)
    (h : ∀ r ∈ rows, r.user_id ≠ uid) :
    generate_content_based_recommendations rows uid featIds features sim n
      = Except.error "KeyError" := by
  have hnot : uid ∉ pivotIndex rows := by
    intro hmem
    rw [pivotIndex, (List.perm_insertionSort _ _).mem_iff, List.mem_dedup]
      at hmem
    obtain ⟨r, hr, he⟩ := List.mem_map.mp hmem
    exact h r hr he
  rw [generate_content_based_recommendations, ratingsMatrixLoc, if_neg hnot]

/-- Witness for C4 at a concrete input: user 7 has no interaction rows and
the scorer evaluates to the `KeyError`, not to `[]`. -/
theorem content_scorer_keyerror_witness :
    generate_content_based_recommendations
      [InteractionRow.mk 1 5 2, InteractionRow.mk 2 9 1] 7 [5, 9]
      (fun _ => (fun _ => 0 : Fin 2 → ℚ)) (fun _ _ => 0) 5
      = Except.error "KeyError" :=
  content_scorer_keyerror_on_zero_interactions _ _ _ _ _ _
    (by intro r hr; fin_cases hr <;> decide)

/-- C6: a churn-prediction request record missing any of the nine declared
feature fields (age, country, total_orders, total_spent,
days_since_last_order, avg_order_value, customer_duration_days,
order_frequency, daily_spend) is rejected by request validation with an
error — no prediction is computed for it (`predict_churn` only ever receives
fully validated `UserData` values). -/
theorem churn_schema_mismatch_rejected
    (uid age : Option Int) (cty : Option String) (tor : Option Int)
    (tsp : Option ℚ) (dsl : Option Int) (aov : Option ℚ) (cdd : Option Int)
    (ofr dsp : Option ℚ)
    (h : age = none ∨ cty = none ∨ tor = none ∨ tsp = none ∨ dsl = none ∨
      aov = none ∨ cdd = none ∨ ofr = none ∨ dsp = none) :
    ∃ msg, validateUserData ⟨uid, age, cty, tor, tsp, dsl, aov, cdd, ofr, dsp⟩
      = Except.error msg := by
  rcases uid with _ | uid
  · exact ⟨_, rfl⟩
  rcases age with _ | age
  · exact ⟨_, rfl⟩
  rcases cty with _ | cty
  · exact ⟨_, rfl⟩
  rcases tor with _ | tor
  · exact ⟨_, rfl⟩
  rcases tsp with _ | tsp
  · exact ⟨_, rfl⟩
  rcases dsl with _ | dsl
  · exact ⟨_, rfl⟩
  rcases aov with _ | aov
  · exact ⟨_, rfl⟩
  rcases cdd with _ | cdd
  · exact ⟨_, rfl⟩
  rcases ofr with _ | ofr
  · exact ⟨_, rfl⟩
  rcases dsp with _ | dsp
  · exact ⟨_, rfl⟩
  simp at h

/-- Witness for C6: a request with 8 of the 9 feature fields (age missing)
is rejected. -/
theorem churn_schema_mismatch_witness :
    ∃ msg, validateUserData
      ⟨some 7, none, some "US", some 3, some 10, some 5, some 2, some 30,
        some 1, some 1⟩ = Except.error msg :=
  churn_schema_mismatch_rejected _ _ _ _ _ _ _ _ _ _ (Or.inl rfl)

/-- C7 (failing input evaluated): when the estimator-selection step picks
`Logistic_Regression`, the secondary grid search of `train.py` still runs
over a fresh `RandomForestClassifier` (the call does not even read the
selection), and the `main.py` variant runs `GridSearchCV` on the champion
but with the random-forest grid, whose keys are not valid
`LogisticRegression` parameters (sklearn raises `ValueError`).  The
cv=3 / ROC-AUC part of the claim does hold, and the grid is only accepted
for the two tree-ensemble families. -/
theorem tuning_fixed_family_evaluation :
    hyperparameter_tuning_train.estimator = EstimatorKind.randomForest
    ∧ EstimatorKind.randomForest ≠ EstimatorKind.logisticRegression
    ∧ (hyperparameter_tuning_main EstimatorKind.logisticRegression).estimator
        = EstimatorKind.logisticRegression
    ∧ gridKeysValid (hyperparameter_tuning_main EstimatorKind.logisticRegression)
        = false
    ∧ hyperparameter_tuning_train.cv = 3
    ∧ hyperparameter_tuning_train.scoring = "roc_auc"
    ∧ (hyperparameter_tuning_main EstimatorKind.logisticRegression).cv = 3
    ∧ (hyperparameter_tuning_main EstimatorKind.logisticRegression).scoring
        = "roc_auc"
    ∧ gridKeysValid (hyperparameter_tuning_main EstimatorKind.randomForest)
        = true
    ∧ gridKeysValid (hyperparameter_tuning_main EstimatorKind.gradientBoosting)
        = true := by
  refine ⟨rfl, by decide, rfl, by decide, rfl, rfl, rfl, rfl, by decide, by decide⟩

/-- C8: for every row with present order dates (`first ≤ last`, as
guaranteed by `MIN ≤ MAX`), the engineered features are exactly
`total_orders / max(d, 1)` and `total_spent / max(d, 1)` with
`d = customer_duration_days`; both results are plain (finite) rationals.
Additionally, for a row with no sales (NULL dates), every non-finite
intermediate is clamped to `0`. -/
theorem engineer_features_division_guard (o : Int) (s : ℚ) (f l : Int)
    (hfl : f ≤ l) :
    (engineer_features ⟨o, some s, some f, some l⟩).order_frequency
        = (o : ℚ) / ((max (l - f) 1 : Int) : ℚ)
    ∧ (engineer_features ⟨o, some s, some f, some l⟩).daily_spend
        = s / ((max (l - f) 1 : Int) : ℚ)
    ∧ ∀ r : RawUserRow, r.first_order_date = none →
        (engineer_features r).order_frequency = 0
        ∧ (engineer_features r).daily_spend = 0 := by
  have hden : replaceZeroWithOne (some (l - f)) = some (max (l - f) 1) := by
    by_cases h0 : l - f = 0
    · simp [replaceZeroWithOne, h0]
    · have h1 : 1 ≤ l - f := by omega
      simp [replaceZeroWithOne, h0, max_eq_left h1]
  have hne : (max (l - f) 1 : Int) ≠ 0 := by
    have : (1 : Int) ≤ max (l - f) 1 := le_max_right _ _
    omega
  refine ⟨?_, ?_, ?_⟩
  · simp [engineer_features, dateSub, hden, colDiv, hne]
  · simp [engineer_features, dateSub, hden, colDiv, hne]
  · intro r hr
    obtain ⟨ro, rs, rf, rl⟩ := r
    simp only at hr
    subst hr
    cases rl <;> cases rs <;>
      simp [engineer_features, dateSub, replaceZeroWithOne, colDiv]

/-- Witness for C8 at `d = 0`: a customer whose first and last orders fall on
the same day gets `order_frequency = total_orders` and
`daily_spend = total_spent` (denominator floored to 1), not a division by
zero. -/
theorem engineer_features_guard_witness :
    (engineer_features ⟨3, some 10, some 5, some 5⟩).order_frequency = 3
    ∧ (engineer_features ⟨3, some 10, some 5, some 5⟩).daily_spend = 10 := by
  have h := engineer_features_division_guard 3 10 5 5 (le_refl 5)
  refine ⟨?_, ?_⟩
  · rw [h.1]; norm_num
  · rw [h.2.1]; norm_num

/-- C9 (failing behaviour evaluated): for every database state with no row
for the requested user, `get_user_features` answers with HTTP **500** (detail
embedding the swallowed `404: User not found`), not with a 404: the
`HTTPException(404)` raised inside the `try:` block is an `Exception`
subclass, so the blanket `except Exception` handler converts it to a 500. -/
theorem get_user_features_missing_user (db : List UserFeaturesRow) (uid : Int)
    (h : ∀ row ∈ db, row.user_id ≠ uid) :
    get_user_features db uid
      = Except.error (500, "Failed to get user features: 404: User not found") := by
  have hf : db.filter (fun row => row.user_id == uid) = [] :=
    List.filter_eq_nil_iff.mpr (by intro a ha; simpa using h a ha)
  simp only [get_user_features, getUserFeaturesBody, hf, List.head?_nil,
    strOfHTTPError]
  rfl

/-- Witness for C9: the empty database has no user 999, and the endpoint
answers 500. -/
theorem get_user_features_missing_user_witness :
    get_user_features [] 999
      = Except.error (500, "Failed to get user features: 404: User not found") :=
  get_user_features_missing_user [] 999
    (by intro r hr; exact absurd hr (List.not_mem_nil r))

/-- C10: the `predict_churn` response list has exactly one entry per
requested user, in request order; entry `i` carries user `i`'s id and the
probability computed on user `i`'s own feature row (the classifier is
row-wise, abstracted by `probaFn`). -/
theorem predict_churn_alignment (predictFn probaFn : UserData → ℚ) (now : Int)
    (users : List UserData) :
    (predict_churn predictFn probaFn now users).length = users.length
    ∧ (predict_churn predictFn probaFn now users).map (fun resp => resp.user_id)
        = users.map (fun u => u.user_id)
    ∧ (predict_churn predictFn probaFn now users).map
          (fun resp => resp.churn_probability)
        = users.map (fun u => probaFn u) := by
  refine ⟨?_, ?_, ?_⟩ <;> simp [predict_churn, List.map_map, Function.comp]

/-- C1: the hybrid blend scores exactly the union of the two key sets, and
each product of the union gets `alpha * content + (1 - alpha) * collab`
where a score absent from either dictionary enters as `0` (the product is
kept, not dropped). -/
theorem hybrid_blend_formula (cD kD : List (Nat × ℚ)) (alpha : ℚ)
    (hk : (dictKeys kD).Nodup) (h0 : 0 ≤ alpha) (h1 : alpha ≤ 1) :
    (∀ p, p ∈ dictKeys (hybridScores cD kD alpha) ↔
        p ∈ dictKeys cD ∨ p ∈ dictKeys kD)
    ∧ (∀ p, (p ∈ dictKeys cD ∨ p ∈ dictKeys kD) →
        dictGet (hybridScores cD kD alpha) p
          = alpha * dictGet cD p + (1 - alpha) * dictGet kD p)
    ∧ (∀ p, p ∉ dictKeys cD → dictGet cD p = 0)
    ∧ (∀ p, p ∉ dictKeys kD → dictGet kD p = 0) := by
  refine ⟨?_, ?_, ?_, ?_⟩
  · intro p
    rw [dictKeys_hybridScores]
    exact mem_unionKeys
  · intro p hp
    have hpU : p ∈ unionKeys cD kD := mem_unionKeys.mpr hp
    unfold hybridScores
    exact dictGet_map_self (nodup_unionKeys hk) hpU
  · intro p hp
    exact dictGet_eq_zero_of_not_mem hp
  · intro p hp
    exact dictGet_eq_zero_of_not_mem hp

/-- Witness for C1 at a concrete input: product 2 is absent from the content
dictionary, yet gets the blended score with content contribution 0. -/
theorem hybrid_blend_formula_witness :
    dictGet (hybridScores [(1, 1/2)] [(2, 3)] (1/2)) 2
      = (1/2 : ℚ) * dictGet [(1, 1/2)] 2 + (1 - 1/2) * dictGet [(2, 3)] 2 :=
  (hybrid_blend_formula [(1, 1/2)] [(2, 3)] (1/2) (by decide) (by norm_num)
      (by norm_num)).2.1 2 (Or.inr (by decide))

/-- C3 counterexample, refuting the ascending-id tie-break: score
dictionaries as produced by the two scorers — content top-8
`[(5,9),(37,7),(49,6),(17,4)]`, collaborative top-8
`[(37,10),(5,8),(17,8),(49,8)]` (Surprise estimates tied at the clipped
scale value 8).  The CPython 3.11 iteration order of
`set(content_dict.keys()) | set(collab_dict.keys())` for these dicts is
`[37, 5, 49, 17]`, and line 203's score-only stable sort keeps tied entries
in that order: the blend at `alpha = 0` evaluates to
`[(37,10),(5,8),(49,8),(17,8)]`, placing product 49 before product 17 at
equal score — not ascending product id. -/
theorem hybrid_blend_tiebreak_counterexample :
    hybrid_blend [37, 5, 49, 17] [(5, 9), (37, 7), (49, 6), (17, 4)]
        [(37, 10), (5, 8), (17, 8), (49, 8)] 0 4
      = [(37, 10), (5, 8), (49, 8), (17, 8)]
    ∧ ¬ (hybrid_blend [37, 5, 49, 17] [(5, 9), (37, 7), (49, 6), (17, 4)]
        [(37, 10), (5, 8), (17, 8), (49, 8)] 0 4).Pairwise
        (fun a b => b.2 < a.2 ∨ (a.2 = b.2 ∧ a.1 < b.1)) := by
  have hmap : [37, 5, 49, 17].map (fun p =>
      (p, 0 * dictGet [(5, 9), (37, 7), (49, 6), (17, 4)] p
        + (1 - 0) * dictGet [(37, 10), (5, 8), (17, 8), (49, 8)] p))
      = [(37, 10), (5, 8), (49, 8), (17, 8)] := by
    norm_num [dictGet_cons, dictGet_nil]
  have heval : hybrid_blend [37, 5, 49, 17] [(5, 9), (37, 7), (49, 6), (17, 4)]
      [(37, 10), (5, 8), (17, 8), (49, 8)] 0 4
      = [(37, 10), (5, 8), (49, 8), (17, 8)] := by
    rw [hybrid_blend, hmap]
    norm_num [pySortDesc, List.insertionSort, List.orderedInsert, scoreGe]
  refine ⟨heval, ?_⟩
  rw [heval]
  intro hcontra
  have h3 := (List.pairwise_cons.mp
    (List.pairwise_cons.mp (List.pairwise_cons.mp hcontra).2).2).1
    (17, 8) (List.mem_cons_self _ _)
  rcases h3 with hlt | ⟨_, hid⟩
  · exact absurd hlt (lt_irrefl (8 : ℚ))
  · omega

/-- C3 amended: the hybrid output is sorted descending by blended score and
is the length-`≤ n` prefix of the full stable sort of the blended
dictionary; the blend is a pure function of its inputs (the two score maps
and the set-iteration order of their key union), so re-running it on the
same inputs returns the identical list.  Tied scores, however, keep the
set-iteration order — not ascending product id (see the counterexample). -/
theorem hybrid_blend_ranking (U : List Nat) (cD kD : List (Nat × ℚ))
    (alpha : ℚ) (n : Nat) :
    (hybrid_blend U cD kD alpha n).Pairwise (fun a b => b.2 ≤ a.2)
    ∧ (hybrid_blend U cD kD alpha n).length ≤ n
    ∧ hybrid_blend U cD kD alpha n
          ++ (pySortDesc (U.map fun p =>
              (p, alpha * dictGet cD p + (1 - alpha) * dictGet kD p))).drop n
        = pySortDesc (U.map fun p =>
            (p, alpha * dictGet cD p + (1 - alpha) * dictGet kD p))
    ∧ hybrid_blend U cD kD alpha n = hybrid_blend U cD kD alpha n := by
  refine ⟨?_, ?_, List.take_append_drop n _, rfl⟩
  · exact (pySortDesc_sorted _).sublist (List.take_sublist _ _)
  · rw [hybrid_blend, List.length_take]
    exact min_le_left _ _

/-- C5 counterexample (spec §8 example instance): a user who interacted only
with product 1 at count 2, product 1's feature vector being `[1, 0]`.  The
code's profile is `[2, 0]` — the weighted sum divided by the **number** of
interacted products (here 1) — while the spec's weighted average (division
by the total interaction weight, here 2) would be `[1, 0]`. -/
theorem user_profile_counterexample :
    userProfile (fun p => if p = 1 then (2 : ℚ) else 0) [1] [1, 2]
        (fun p => if p = 1 then ![1, 0] else ![0, 1]) = ![2, 0]
    ∧ specUserProfile (fun p => if p = 1 then (2 : ℚ) else 0) [1]
        (fun p => if p = 1 then ![1, 0] else ![0, 1]) = ![1, 0]
    ∧ (![2, 0] : Fin 2 → ℚ) ≠ ![1, 0] := by
  refine ⟨?_, ?_, ?_⟩
  · funext j
    fin_cases j <;>
      simp [userProfile, userProfileSum, addVec, smulVec, zeroVec]
  · funext j
    fin_cases j <;>
      norm_num [specUserProfile, addVec, smulVec, zeroVec]
  · intro hcontra
    have h0 := congrFun hcontra 0
    norm_num at h0

/-- C5 amended: for every user with at least one interaction, every
component of the code's user profile equals the sum of
`interaction_count * feature` divided by the **number of distinct interacted
products** (`len(interacted_products)`), not by the total interaction
weight.  (Cosine similarity is scale-invariant, so downstream rankings do
not distinguish the two normalizations.) -/
theorem user_profile_weighted_sum {m : Nat} (row : Nat → ℚ)
    (ps featIds : List Nat) (features : Nat → Fin m → ℚ) (j : Fin m)
    (hin : ∀ p ∈ ps, p ∈ featIds) (hne : ps ≠ []) :
    userProfile row ps featIds features j
      = (ps.map fun p => row p * features p j).sum / (ps.length : ℚ) := by
  have hlen : 0 < ps.length := List.length_pos.mpr hne
  rw [userProfile, if_pos hlen]
  show (1 / (ps.length : ℚ)) * (userProfileSum row ps featIds features j) = _
  rw [userProfileSum, userProfileSum_apply row featIds features ps _ j hin]
  show (1 / (ps.length : ℚ)) * (0 + _) = _
  rw [zero_add, one_div_mul_eq_div]

/-- Witness for the amended C5 at the spec's example instance: the first
profile component is `(2 * 1) / 1 = 2`. -/
theorem user_profile_weighted_sum_witness :
    userProfile (fun p => if p = 1 then (2 : ℚ) else 0) [1] [1, 2]
        (fun p => if p = 1 then ![1, 0] else ![0, 1]) 0
      = (([1] : List Nat).map fun p =>
            (if p = 1 then (2 : ℚ) else 0) *
              (if p = 1 then (![1, 0] : Fin 2 → ℚ) else ![0, 1]) 0).sum
        / (([1] : List Nat).length : ℚ) :=
  user_profile_weighted_sum _ [1] [1, 2] _ 0 (by decide) (by decide)

/-- C2 amended: the boundary equivalences hold provided the scorer being
reduced to produces scores that are **strictly positive and pairwise
distinct** on the candidate set: then for every set-iteration order `U` of
the blended key union, the blend at `alpha = 0` reproduces the
collaborative top-`n` exactly, and at `alpha = 1` the content top-`n`
exactly.  Both provisos are necessary: a product absent from one dictionary
enters the blend at score `0` and can displace a genuinely ranked product
whose score is zero or negative, and tied scores (e.g. Surprise estimates
clipped to the rating-scale bound) come out in set-iteration order rather
than the scorer's own tie order — see the counterexample. -/
theorem hybrid_boundary_equivalence (U : List Nat)
    (contentScore collabScore : Nat → ℚ) (cands : List Nat) (n : Nat)
    (hcands : cands.Nodup) (hU : U.Nodup)
    (hUmem : ∀ p, p ∈ U ↔
      (p ∈ dictKeys (genRecs contentScore cands (2 * n))
        ∨ p ∈ dictKeys (genRecs collabScore cands (2 * n)))) :
    ((∀ p ∈ cands, 0 < collabScore p) →
      (∀ p ∈ cands, ∀ q ∈ cands, collabScore p = collabScore q → p = q) →
      hybrid_recommendations U contentScore collabScore cands n 0
        = genRecs collabScore cands n)
    ∧ ((∀ p ∈ cands, 0 < contentScore p) →
      (∀ p ∈ cands, ∀ q ∈ cands, contentScore p = contentScore q → p = q) →
      hybrid_recommendations U contentScore collabScore cands n 1
        = genRecs contentScore cands n) := by
  have hUsub : ∀ p ∈ U, p ∈ cands := by
    intro p hp
    rcases (hUmem p).mp hp with h | h
    · exact @genRecs_keys_sub contentScore cands (2 * n) p h
    · exact @genRecs_keys_sub collabScore cands (2 * n) p h
  constructor
  · intro hpos hinj
    show (pySortDesc (U.map fun p =>
        (p, 0 * dictGet (genRecs contentScore cands (2 * n)) p
          + (1 - 0) * dictGet (genRecs collabScore cands (2 * n)) p))).take n
      = _
    have hsc : (U.map fun p =>
        (p, 0 * dictGet (genRecs contentScore cands (2 * n)) p
          + (1 - 0) * dictGet (genRecs collabScore cands (2 * n)) p))
        = U.map fun p =>
            (p, dictGet (genRecs collabScore cands (2 * n)) p) := by
      apply List.map_congr_left
      intro p hp
      norm_num
    rw [hsc]
    exact boundary_core collabScore cands n U hcands hU hUsub
      (fun p hp => (hUmem p).mpr (Or.inr hp)) hpos hinj
  · intro hpos hinj
    show (pySortDesc (U.map fun p =>
        (p, 1 * dictGet (genRecs contentScore cands (2 * n)) p
          + (1 - 1) * dictGet (genRecs collabScore cands (2 * n)) p))).take n
      = _
    have hsc : (U.map fun p =>
        (p, 1 * dictGet (genRecs contentScore cands (2 * n)) p
          + (1 - 1) * dictGet (genRecs collabScore cands (2 * n)) p))
        = U.map fun p =>
            (p, dictGet (genRecs contentScore cands (2 * n)) p) := by
      apply List.map_congr_left
      intro p hp
      norm_num
    rw [hsc]
    exact boundary_core contentScore cands n U hcands hU hUsub
      (fun p hp => (hUmem p).mpr (Or.inl hp)) hpos hinj

/-- C2 counterexample to the unconditional claim, at its two failure modes.
(i) Non-positive scores: with all collaborative estimates negative and the
content scorer high on product 3 — union iteration `[1, 2, 3]` (the CPython
order of `set({3: 5.0, 1: 0.0}.keys()) | set({1: -1.0, 2: -2.0}.keys())`) —
the blend at `alpha = 0` is `[(3, 0)]`: product 3, present only in the
content dictionary, enters with collaborative contribution 0 and displaces
product 1, while the collaborative top-1 is `[(1, -1)]`.
(ii) Tied scores: with strictly positive collaborative estimates tied at
the clipped scale value 8 and content top-8 `[(5,9),(37,7),(49,6),(17,4)]`,
the union iterates `[37, 5, 49, 17]` under CPython 3.11 and the blend at
`alpha = 0` is `[(37,10),(5,8),(49,8),(17,8)]`, which differs from the
collaborative top-4 `[(37,10),(5,8),(17,8),(49,8)]` in the order of the
tied run. -/
theorem hybrid_boundary_counterexample :
    hybrid_recommendations [1, 2, 3] (fun p => if p = 3 then (5 : ℚ) else 0)
        (fun p => -(p : ℚ)) [1, 2, 3] 1 0
      ≠ genRecs (fun p => -(p : ℚ)) [1, 2, 3] 1
    ∧ hybrid_recommendations [37, 5, 49, 17]
        (fun p => if p = 5 then (9 : ℚ) else if p = 37 then 7 else
          if p = 49 then 6 else 4)
        (fun p => if p = 37 then (10 : ℚ) else 8) [5, 17, 37, 49] 4 0
      ≠ genRecs (fun p => if p = 37 then (10 : ℚ) else 8) [5, 17, 37, 49] 4 := by
  constructor
  · have hR : genRecs (fun p => -(p : ℚ)) [1, 2, 3] 1 = [(1, -1)] := by
      norm_num [genRecs, sortRanked, List.insertionSort, List.orderedInsert,
        rankRel]
    have hcD : genRecs (fun p => if p = 3 then (5 : ℚ) else 0) [1, 2, 3] (2 * 1)
        = [(3, 5), (1, 0)] := by
      norm_num [genRecs, sortRanked, List.insertionSort, List.orderedInsert,
        rankRel]
    have hkD : genRecs (fun p => -(p : ℚ)) [1, 2, 3] (2 * 1)
        = [(1, -1), (2, -2)] := by
      norm_num [genRecs, sortRanked, List.insertionSort, List.orderedInsert,
        rankRel]
    have hmap : [1, 2, 3].map (fun p =>
        (p, 0 * dictGet [(3, 5), (1, 0)] p
          + (1 - 0) * dictGet [(1, -1), (2, -2)] p))
        = [(1, -1), (2, -2), (3, 0)] := by
      norm_num [dictGet_cons, dictGet_nil]
    have hL : hybrid_recommendations [1, 2, 3]
        (fun p => if p = 3 then (5 : ℚ) else 0) (fun p => -(p : ℚ)) [1, 2, 3] 1 0
        = [(3, 0)] := by
      rw [hybrid_recommendations, hcD, hkD, hybrid_blend, hmap]
      norm_num [pySortDesc, List.insertionSort, List.orderedInsert, scoreGe]
    rw [hL, hR]
    simp
  · have hR : genRecs (fun p => if p = 37 then (10 : ℚ) else 8) [5, 17, 37, 49] 4
        = [(37, 10), (5, 8), (17, 8), (49, 8)] := by
      norm_num [genRecs, sortRanked, List.insertionSort, List.orderedInsert,
        rankRel]
    have hcD : genRecs (fun p => if p = 5 then (9 : ℚ) else if p = 37 then 7 else
        if p = 49 then 6 else 4) [5, 17, 37, 49] (2 * 4)
        = [(5, 9), (37, 7), (49, 6), (17, 4)] := by
      norm_num [genRecs, sortRanked, List.insertionSort, List.orderedInsert,
        rankRel]
    have hkD : genRecs (fun p => if p = 37 then (10 : ℚ) else 8) [5, 17, 37, 49]
        (2 * 4) = [(37, 10), (5, 8), (17, 8), (49, 8)] := by
      norm_num [genRecs, sortRanked, List.insertionSort, List.orderedInsert,
        rankRel]
    have hmap : [37, 5, 49, 17].map (fun p =>
        (p, 0 * dictGet [(5, 9), (37, 7), (49, 6), (17, 4)] p
          + (1 - 0) * dictGet [(37, 10), (5, 8), (17, 8), (49, 8)] p))
        = [(37, 10), (5, 8), (49, 8), (17, 8)] := by
      norm_num [dictGet_cons, dictGet_nil]
    have hL : hybrid_recommendations [37, 5, 49, 17]
        (fun p => if p = 5 then (9 : ℚ) else if p = 37 then 7 else
          if p = 49 then 6 else 4)
        (fun p => if p = 37 then (10 : ℚ) else 8) [5, 17, 37, 49] 4 0
        = [(37, 10), (5, 8), (49, 8), (17, 8)] := by
      rw [hybrid_recommendations, hcD, hkD, hybrid_blend, hmap]
      norm_num [pySortDesc, List.insertionSort, List.orderedInsert, scoreGe]
    rw [hL, hR]
    simp

/-- Witness for the amended C2 at a concrete input with strictly positive,
pairwise distinct scores on both sides: the blend at `alpha = 0` returns the
collaborative top-1 (union key set {2, 3}, iterated `[2, 3]` as CPython
does). -/
theorem hybrid_boundary_equivalence_witness :
    hybrid_recommendations [2, 3] (fun p => (p : ℚ) + 2) (fun p => (p : ℚ) + 1)
        [1, 2, 3] 1 0
      = genRecs (fun p => (p : ℚ) + 1) [1, 2, 3] 1 := by
  have hcD : genRecs (fun p => (p : ℚ) + 2) [1, 2, 3] (2 * 1)
      = [(3, 5), (2, 4)] := by
    norm_num [genRecs, sortRanked, List.insertionSort, List.orderedInsert,
      rankRel]
  have hkD : genRecs (fun p => (p : ℚ) + 1) [1, 2, 3] (2 * 1)
      = [(3, 4), (2, 3)] := by
    norm_num [genRecs, sortRanked, List.insertionSort, List.orderedInsert,
      rankRel]
  refine (hybrid_boundary_equivalence [2, 3] _ _ [1, 2, 3] 1 (by decide)
    (by decide) ?_).1 ?_ ?_
  · intro p
    rw [hcD, hkD]
    simp only [dictKeys, List.map_cons, List.map_nil, List.mem_cons,
      List.not_mem_nil, or_false]
    tauto
  · intro p hp
    positivity
  · intro p hp q hq he
    have h2 := add_right_cancel he
    exact_mod_cast h2

end E2EML
